import Mathlib

/-!
Verification development for the hfy2epub crawl/discovery engine
(src/js/hfy2epub.js).

The JavaScript source is shallowly embedded as pure Lean functions.
External collaborators are passed in as parameters:

* the network (`XMLHttpRequest` + JSON.parse) is an oracle
  `net : String → Except String JSVal` giving, for each URL, either the
  parsed JSON payload or the error string the fetch layer would report;
* the HTML entity decoder `he.decode` is a parameter
  `decodeEnt : String → String` (it is only ever applied to strings; the
  source applies it to non-strings only on malformed payloads, where the
  library throws — modelled as a crash);
* `DOMParser` plus `getElementsByTagName` is a parameter: parsing a markup
  string yields the document's heading texts and its anchor elements in
  document order (`parseDoc : String → Doc`, or `parseLinks : String →
  List Link` where only anchors matter);
* the user-supplied next-link regular expression (read from the
  `#nextPostRegex` input) is a predicate `regex : String → Bool` giving
  the truthiness of `text.match(regex)`.

JavaScript dynamic values appearing in payloads are modelled by `JSVal`;
an uncaught JavaScript exception (e.g. a `TypeError` from reading a
property of `undefined`, or `he.decode` applied to a non-string) is
modelled by an explicit crash outcome.  Callback-driven control flow is
modelled by returning the ordered list of notification events a call
produces; a callback slot is `Option`al (the source tests `if
(callbacks.x)`) and returns a `Bool`, `false` standing for the JavaScript
`=== false` abort signal and `true` for every other return value.
-/

namespace Hfy

/-- JavaScript values occurring in fetched JSON payloads (and the
`undefined` value produced by missing-property reads). -/
inductive JSVal where
  | undef
  | null
  | str (s : String)
  | arr (elems : List JSVal)
  | obj (fields : List (String × JSVal))

/-- Decimal digit test for property keys. -/
def isDigitChar (c : Char) : Bool := 48 ≤ c.toNat && c.toNat ≤ 57

/-- Parse a run of decimal digits into a number, failing on any
non-digit. -/
def parseIndexGo : List Char → Nat → Option Nat
  | [], acc => some acc
  | c :: cs, acc =>
    if isDigitChar c then parseIndexGo cs (acc * 10 + (c.toNat - 48)) else none

/-- A property key read as a JavaScript array index: a non-empty all-digit
key names the element at that position. -/
def jsIndex? (key : String) : Option Nat :=
  if key.data.isEmpty then none else parseIndexGo key.data 0

/-- Property read `v[key]`, as JavaScript evaluates it on the payload
values above: reading a property of `undefined` or `null` throws a
`TypeError` (modelled as `.error ()`); a missing object field or
out-of-range array index yields `undefined`; on an array, a numeric key
selects the element.  (String objects' numeric self-indexing and the
`length` property of arrays are not exercised by the embedded code and
are modelled as `undefined`.) -/
def jsGet (v : JSVal) (key : String) : Except Unit JSVal :=
  match v with
  | .undef => .error ()
  | .null => .error ()
  | .str _ => .ok .undef
  | .arr elems =>
    match jsIndex? key with
    | some i => .ok (elems.getD i .undef)
    | none => .ok .undef
  | .obj fields =>
    .ok (((fields.find? (fun p => p.1 == key)).map (fun p => p.2)).getD .undef)

/-! ## Identity / URL canonicalizer (nameFromURL, urlFromName, unshorten) -/

/-- ASCII lower-casing of one character, as `String.prototype.toLowerCase`
and the case-insensitive `i` regex flag treat the ASCII range (the
patterns below are ASCII literals, and in non-Unicode mode JavaScript
regex canonicalization never folds a non-ASCII character onto an ASCII
one). -/
def lowerChar (c : Char) : Char :=
  if 65 ≤ c.toNat ∧ c.toNat ≤ 90 then Char.ofNat (c.toNat + 32) else c

/-- The regex character class `[A-Za-z0-9]`. -/
def jsAlnum (c : Char) : Bool :=
  (48 ≤ c.toNat && c.toNat ≤ 57) || (65 ≤ c.toNat && c.toNat ≤ 90) ||
    (97 ≤ c.toNat && c.toNat ≤ 122)

/-- Case-insensitively consume the literal pattern `pat` (given in
lowercase) from the front of `s`; on success return the remainder of
`s`. -/
def dropPat : List Char → List Char → Option (List Char)
  | [], s => some s
  | _ :: _, [] => none
  | p :: ps, c :: cs => if lowerChar c = p then dropPat ps cs else none

/-- Leftmost match of the regex `<pat>([A-Za-z0-9]+)` (case-insensitive,
`pat` a lowercase literal): scan positions left to right; at the first
position where the literal matches and is followed by at least one
`[A-Za-z0-9]` character, return the maximal (greedy) alphanumeric run
captured by the group. -/
def findCapture (pat : List Char) : List Char → Option (List Char)
  | [] => none
  | c :: rest =>
    match dropPat pat (c :: rest) with
    | some after =>
      if (after.takeWhile jsAlnum).isEmpty then findCapture pat rest
      else some (after.takeWhile jsAlnum)
    | none => findCapture pat rest

/-- Literal part of the short-link pattern `/redd\.it\/([A-Za-z0-9]+)/i`. -/
def shortPat : List Char := "redd.it/".data

/-- Literal part of the long-link pattern
`/r\/HFY\/comments\/([A-Za-z0-9]+)/i`, lowercased for the
case-insensitive comparison. -/
def longPat : List Char := "r/hfy/comments/".data

/-- Map `String.prototype.toLowerCase` over a character list. -/
def lowerStr (l : List Char) : List Char := l.map lowerChar

/-- `nameFromURL` (source lines 138–149): try the short-link pattern,
then the long-link pattern; return the first capture lowercased, or
`undefined` (here `none`) if neither matches. -/
def nameFromURL (url : String) : Option String :=
  match findCapture shortPat url.data with
  | some cap => some (String.mk (lowerStr cap))
  | none =>
    match findCapture longPat url.data with
    | some cap => some (String.mk (lowerStr cap))
    | none => none

/-- JavaScript string coercion of a possibly-`undefined` string value, as
performed by the `+` concatenation in `urlFromName`. -/
def jsStringOf : Option String → String
  | none => "undefined"
  | some s => s

/-- `urlFromName` (source lines 153–156).  The JavaScript parameter is
dynamically typed; when `unshorten` passes the `undefined` result of a
failed `nameFromURL`, concatenation coerces it to the text
`"undefined"`. -/
def urlFromName (name : Option String) : String :=
  "https://www.reddit.com/r/HFY/comments/" ++ jsStringOf name ++ "/"

/-- `unshorten` (source lines 166–169): `urlFromName(nameFromURL(url))`. -/
def unshorten (url : String) : String :=
  urlFromName (nameFromURL url)

/-- Modelled from the spec: §4.3 says that when `extractIdentifier`
yields undefined, normalization "propagates undefined"; this definition
follows the spec's words (returning `none` in that case) so it can be
compared with the source's `unshorten`. -/
def unshortenPerSpec (url : String) : Option String :=
  (nameFromURL url).map (fun n => urlFromName (some n))

/-! ## Rate-limited fetch layer (requestRedditJSON timing) -/

/-- The `setTimeout` delay computed at call time (source line 31):
`Math.max(0, timeOfLastRealRequest + timeInMsBetweenRequests -
Date.now())`.  `timeOfLastRealRequest` is only assigned inside the
`onreadystatechange` handler (line 15), so a call entering before the
previous request's state changes reads the timestamp recorded at the
previous request's completion — or the stale value before that, if the
previous request is still in flight. -/
def requestDelay (timeOfLastRealRequest timeInMsBetweenRequests now : Int) : Int :=
  max 0 (timeOfLastRealRequest + timeInMsBetweenRequests - now)

/-- The instant at which a call entering at `now`, reading the shared
timestamp `timeOfLastRealRequest`, begins its network request: its timer
fires after `requestDelay`. -/
def requestBegin (now timeOfLastRealRequest timeInMsBetweenRequests : Int) : Int :=
  now + requestDelay timeOfLastRealRequest timeInMsBetweenRequests now

/-! ## Response cache (requestRedditJSONCached) -/

/-- `requestRedditJSONCached` (source lines 36–46).  The `Map` keyed by
exact URL string is an association list; the network is the oracle
`net`.  Result: the value delivered to the success/error callback, the
cache after the call, and whether a real network request was issued. -/
def requestRedditJSONCached (net : String → Except String JSVal)
    (cache : List (String × JSVal)) (url : String) :
    Except String JSVal × List (String × JSVal) × Bool :=
  match cache.find? (fun p => p.1 == url) with
  | some p => (.ok p.2, cache, false)
  | none =>
    match net url with
    | .ok json => (.ok json, (url, json) :: cache, true)
    | .error e => (.error e, cache, true)

/-! ## Post collector (collectPost) -/

/-- The record built at source lines 184–190; the payload fields are
dynamic values. -/
structure JSPost where
  author : JSVal
  title : JSVal
  name : JSVal
  content : String
  url : JSVal

/-- Outcome of one `collectPost` call: the success callback's argument,
the error callback's argument, or an uncaught exception. -/
inductive CPOutcome where
  | success (post : JSPost)
  | errorCb (msg : String)
  | crash

/-- `collectPost` (source lines 178–193): unshorten, fetch through the
cache, destructure `json[0]['data']['children'][0]['data']` (any read of
a property of `undefined`/`null` throws), `he.decode` the
`selftext_html` field (throws on a non-string), and deliver the post
record.  A fetch failure reaches the error callback; a destructuring or
decode failure is an uncaught exception. -/
def collectPost (net : String → Except String JSVal) (decodeEnt : String → String)
    (cache : List (String × JSVal)) (url : String) :
    CPOutcome × List (String × JSVal) :=
  let unshortenedUrl := unshorten url
  match requestRedditJSONCached net cache unshortenedUrl with
  | (.error e, cache1, _) => (.errorCb e, cache1)
  | (.ok json, cache1, _) =>
    match jsGet json "0" >>= (fun a => jsGet a "data") >>= (fun b => jsGet b "children")
        >>= (fun c => jsGet c "0") >>= (fun d => jsGet d "data") with
    | .error _ => (.crash, cache1)
    | .ok post =>
      match jsGet post "selftext_html" with
      | .ok (.str rawHtml) =>
        match jsGet post "author", jsGet post "title", jsGet post "name",
            jsGet post "url" with
        | .ok author, .ok title, .ok name, .ok purl =>
          (.success ⟨author, title, name, decodeEnt rawHtml, purl⟩, cache1)
        | _, _, _, _ => (.crash, cache1)
      | _ => (.crash, cache1)

/-! ## Shared orchestration data -/

/-- A fully fetched post as the orchestration layer consumes it (the
spec's Post data model; the fields the collector hands to callbacks). -/
structure Post where
  author : String
  title : String
  name : String
  content : String
  url : String
deriving DecidableEq

/-- The part records pushed by the wiki strategy and consumed by the
batch collector (`{name, title, url}`). -/
structure PartRef where
  name : Option String
  title : String
  url : String
deriving DecidableEq

/-- Outcome of one `collectPost` call as observed by an orchestration
caller: success-callback post, error-callback message, or an uncaught
exception inside `collectPost`.  The orchestration functions take the
per-URL outcome as an oracle, since it is determined by the network
responses. -/
inductive PostResult where
  | ok (post : Post)
  | err (msg : String)
  | crash
deriving DecidableEq

/-- An anchor element: its visible text (`textContent`) and its
`getAttribute('href')` result, `none` for a missing attribute (the DOM
returns `null`, and `nameFromURL(null)` throws). -/
structure Link where
  text : String
  href : Option String
deriving DecidableEq

/-! ## Next-link detection (findNextURL) -/

/-- `findNextURL` (source lines 119–134) on the anchor list of the parsed
content: return the href of the first link whose text matches the regex
and whose `nameFromURL` is not in `previousNames`; `null` (`none`) if no
link qualifies.  A matching link without an href crashes
(`null.match`). -/
def findNextURL (regex : String → Bool) (links : List Link)
    (previousNames : List (Option String)) : Except Unit (Option String) :=
  match links with
  | [] => .ok none
  | link :: rest =>
    if regex link.text then
      match link.href with
      | none => .error ()
      | some potentialNextLink =>
        if previousNames.contains (nameFromURL potentialNextLink) then
          findNextURL regex rest previousNames
        else .ok (some potentialNextLink)
    else findNextURL regex rest previousNames

/-! ## Batch collector (collectPartPosts) -/

/-- Notifications fired during a `collectPartPosts` run, in order, plus
the bookkeeping event `fetchAttempt` marking each `collectPost` call the
run makes. -/
inductive BatchEvent where
  | fetchAttempt (url : String)
  | collected (post : Post)
  | errored (message : String) (part : PartRef)
  | done (posts : List Post)
  | crashed
deriving DecidableEq

/-- The callbacks dictionary of `collectPartPosts`; a missing entry is
`none`, and a handler returning the JavaScript value `false` (here
`Bool` `false`) aborts. -/
structure BatchCallbacks where
  collectedPost : Option (Post → Bool)
  error : Option (String → PartRef → Bool)
  done : Option (List Post → Bool)

/-- The inner `collectPart` recursion of `collectPartPosts` (source lines
211–231), producing the ordered event trace: past the end of the list,
fire `done` with the accumulated posts; otherwise fetch the part's post,
overwrite its title with the listing title, fire `collectedPost`
(aborting if it returns `false`, in which case the post is not
accumulated), and recurse; on a fetch error fire `error` with the message
and part and stop. -/
def collectPart (cp : String → PostResult) (callbacks : BatchCallbacks) :
    List PartRef → List Post → List BatchEvent
  | [], posts =>
    match callbacks.done with
    | some _ => [.done posts]
    | none => []
  | part :: rest, posts =>
    .fetchAttempt part.url ::
      match cp part.url with
      | .ok post0 =>
        let post := { post0 with title := part.title }
        match callbacks.collectedPost with
        | some f =>
          .collected post ::
            (if f post then collectPart cp callbacks rest (posts ++ [post]) else [])
        | none => collectPart cp callbacks rest (posts ++ [post])
      | .err message =>
        match callbacks.error with
        | some _ => [.errored message part]
        | none => []
      | .crash => [.crashed]

/-- `collectPartPosts` (source lines 208–234): run `collectPart` from
index 0 with an empty accumulator. -/
def collectPartPosts (cp : String → PostResult) (parts : List PartRef)
    (callbacks : BatchCallbacks) : List BatchEvent :=
  collectPart cp callbacks parts []

/-! ## Link-following discovery (findSeriesParts) -/

/-- Notifications fired during a `findSeriesParts` crawl, in order.
`fuelOut` marks exhaustion of the step budget the Lean model imposes on
the source's unbounded recursion. -/
inductive CrawlEvent where
  | collected (post : Post)
  | foundUrl (url : String)
  | errored (message : String)
  | done (posts : List Post)
  | crashed
  | fuelOut
deriving DecidableEq

/-- The callbacks dictionary of `findSeriesParts`. -/
structure CrawlCallbacks where
  foundUrl : Option (String → Bool)
  collectedPost : Option (Post → Bool)
  error : Option (String → Bool)
  done : Option (List Post → Bool)

/-- The inner `collectPostRecurse` of `findSeriesParts` (source lines
248–278): fetch the post, accumulate it, fire `collectedPost`, append
`nameFromURL(url)` to the visited list, look for a next link in the
post's parsed content; on a hit fire `foundUrl` and recurse, otherwise
fire `done` with the accumulated posts; a fetch error fires `error` and
stops.  `parseLinks` abstracts `DOMParser` applied to the content;
`regex` is the `#nextPostRegex` predicate. -/
def collectPostRecurse (cp : String → PostResult) (parseLinks : String → List Link)
    (regex : String → Bool) (callbacks : CrawlCallbacks) :
    Nat → String → List Post → List (Option String) → List CrawlEvent
  | 0, _, _, _ => [.fuelOut]
  | fuel + 1, url, collectedPosts, previousNames =>
    match cp url with
    | .err e =>
      match callbacks.error with
      | some _ => [.errored e]
      | none => []
    | .crash => [.crashed]
    | .ok post =>
      let collectedPosts1 := collectedPosts ++ [post]
      let previousNames1 := previousNames ++ [nameFromURL url]
      let tailEvents : List CrawlEvent :=
        match findNextURL regex (parseLinks post.content) previousNames1 with
        | .error _ => [.crashed]
        | .ok (some nextUrl) =>
          match callbacks.foundUrl with
          | some f =>
            .foundUrl nextUrl ::
              (if f nextUrl then
                collectPostRecurse cp parseLinks regex callbacks fuel nextUrl
                  collectedPosts1 previousNames1
              else [])
          | none =>
            collectPostRecurse cp parseLinks regex callbacks fuel nextUrl
              collectedPosts1 previousNames1
        | .ok none =>
          match callbacks.done with
          | some _ => [.done collectedPosts1]
          | none => []
      match callbacks.collectedPost with
      | some f => .collected post :: (if f post then tailEvents else [])
      | none => tailEvents

/-- `findSeriesParts` (source lines 245–280): start the recursion at the
start URL with empty accumulators. -/
def findSeriesParts (cp : String → PostResult) (parseLinks : String → List Link)
    (regex : String → Bool) (callbacks : CrawlCallbacks) (fuel : Nat)
    (startUrl : String) : List CrawlEvent :=
  collectPostRecurse cp parseLinks regex callbacks fuel startUrl [] []

/-! ## Index-page discovery (collectSeriesInfoFromWikiPage) -/

/-- The parsed wiki page document as the strategy reads it: the
`textContent`s of its h1/h2/h3 elements and its anchors, all in document
order. -/
structure Doc where
  h1 : List String
  h2 : List String
  h3 : List String
  links : List Link

/-- A Series, the wiki strategy's completion value. -/
structure Series where
  title : String
  author : String
  parts : List PartRef
deriving DecidableEq

/-- Notifications and observable steps of one
`collectSeriesInfoFromWikiPage` call, in order. -/
inductive WikiEvent where
  | errored (message : String)
  | fetchedFirstPart (url : String)
  | completed (series : Series)
  | crashed
deriving DecidableEq

/-- Title heuristic (source lines 67–81): first h1, else first h2, else
first h3, else the empty string. -/
def pickTitle (doc : Doc) : String :=
  match doc.h1 with
  | t :: _ => t
  | [] =>
    match doc.h2 with
    | t :: _ => t
    | [] =>
      match doc.h3 with
      | t :: _ => t
      | [] => ""

/-- Part extraction loop (source lines 84–98): every anchor whose href
yields an identifier becomes a part `{name, url, title}` in document
order; anchors with no derivable identifier are skipped.  An anchor with
no href attribute crashes (`nameFromURL(null)`). -/
def partsFromLinks : List Link → Except Unit (List PartRef)
  | [] => .ok []
  | link :: rest =>
    match link.href with
    | none => .error ()
    | some href =>
      match nameFromURL href with
      | some name =>
        (partsFromLinks rest).map
          (fun tail => { name := some name, title := link.text, url := href } :: tail)
      | none => partsFromLinks rest

/-- The loose comparison `json.kind != "wikipage"` on the `kind` field's
value, negated: a string compares by value; `undefined`, `null`, arrays
and objects are never loosely equal to `"wikipage"` here (the
object-to-primitive corner in which a one-element array holding
`"wikipage"` would compare equal is not modelled — no JSON API shape
exercises it). -/
def jsKindIsWikipage (kindVal : JSVal) : Bool :=
  match kindVal with
  | .str s => s == "wikipage"
  | _ => false

/-- `collectSeriesInfoFromWikiPage` (source lines 57–112), as the ordered
event trace of one call.  `fetch` is the outcome of the cached fetch at
the page URL; `cp` gives the outcome `collectPost` would deliver for a
part URL.  Note the source calls `errorCallback` on a non-wikipage kind
*without returning* (line 60), so execution falls through to the
decode/parse below; and when zero parts are found the function ends
without invoking any callback. -/
def collectSeriesInfoFromWikiPage (fetch : Except String JSVal)
    (decodeEnt : String → String) (parseDoc : String → Doc)
    (cp : String → PostResult) (url : String) : List WikiEvent :=
  match fetch with
  | .error e => [.errored e]
  | .ok json =>
    match jsGet json "kind" with
    | .error _ => [.crashed]
    | .ok kindVal =>
      let kindEvents : List WikiEvent :=
        if jsKindIsWikipage kindVal then [] else [.errored (url ++ " is not a wiki page")]
      match jsGet json "data" >>= (fun d => jsGet d "content_html") with
      | .error _ => kindEvents ++ [.crashed]
      | .ok (.str contentHtml) =>
        let doc := parseDoc (decodeEnt contentHtml)
        let title := pickTitle doc
        match partsFromLinks doc.links with
        | .error _ => kindEvents ++ [.crashed]
        | .ok parts =>
          match parts with
          | [] => kindEvents
          | part0 :: _ =>
            kindEvents ++ (.fetchedFirstPart part0.url ::
              match cp part0.url with
              | .ok post =>
                [.completed { title := if title == "" then post.title else title,
                              author := post.author, parts := parts }]
              | .err e => [.errored e]
              | .crash => [.crashed])
      | .ok _ => kindEvents ++ [.crashed]

/-! ## Helper lemmas: ASCII case folding -/

/-- Reading back the code point of a character built from a valid code
point. -/
theorem char_toNat_ofNat (n : Nat) (h : n < 55296) : (Char.ofNat n).toNat = n := by
  have hv : n.isValidChar := Or.inl h
  simp [Char.ofNat, hv, Char.ofNatAux, Char.toNat, UInt32.toNat, UInt32.ofNat']

/-- Lower-casing fixes any character outside the uppercase ASCII range. -/
theorem lowerChar_eq_self (c : Char) (h : ¬(65 ≤ c.toNat ∧ c.toNat ≤ 90)) :
    lowerChar c = c := by
  unfold lowerChar
  rw [if_neg h]

/-- Lower-casing an uppercase ASCII letter adds 32 to its code point. -/
theorem lowerChar_toNat_upper (c : Char) (h : 65 ≤ c.toNat ∧ c.toNat ≤ 90) :
    (lowerChar c).toNat = c.toNat + 32 := by
  unfold lowerChar
  rw [if_pos h]
  exact char_toNat_ofNat _ (by omega)

/-- Unfolding of the `[A-Za-z0-9]` class into code point ranges. -/
theorem jsAlnum_iff (c : Char) : jsAlnum c = true ↔
    (48 ≤ c.toNat ∧ c.toNat ≤ 57) ∨ (65 ≤ c.toNat ∧ c.toNat ≤ 90) ∨
      (97 ≤ c.toNat ∧ c.toNat ≤ 122) := by
  simp [jsAlnum, Bool.or_eq_true, Bool.and_eq_true, decide_eq_true_eq]
  tauto

/-- The alphanumeric class is closed under lower-casing. -/
theorem jsAlnum_lowerChar (c : Char) (h : jsAlnum c = true) :
    jsAlnum (lowerChar c) = true := by
  by_cases hu : 65 ≤ c.toNat ∧ c.toNat ≤ 90
  · rw [jsAlnum_iff]
    rw [lowerChar_toNat_upper c hu]
    omega
  · rw [lowerChar_eq_self c hu]
    exact h

/-- Lower-casing is idempotent. -/
theorem lowerChar_lowerChar (c : Char) : lowerChar (lowerChar c) = lowerChar c := by
  by_cases hu : 65 ≤ c.toNat ∧ c.toNat ≤ 90
  · have h2 : ¬(65 ≤ (lowerChar c).toNat ∧ (lowerChar c).toNat ≤ 90) := by
      rw [lowerChar_toNat_upper c hu]
      omega
    exact lowerChar_eq_self _ h2
  · rw [lowerChar_eq_self c hu, lowerChar_eq_self c hu]

/-- An alphanumeric character never lower-cases to a dot, the
distinguishing character of the short-link pattern. -/
theorem lowerChar_ne_dot (c : Char) (h : jsAlnum c = true) : lowerChar c ≠ '.' := by
  intro he
  have := jsAlnum_lowerChar c h
  rw [he] at this
  simp [jsAlnum] at this

/-! ## Helper lemmas: pattern scanning -/

/-- The short-link literal `redd.it/` cannot be consumed from a string
none of whose characters lower-cases to a dot. -/
theorem dropPat_shortPat_none (s : List Char) (hs : ∀ c ∈ s, lowerChar c ≠ '.') :
    dropPat shortPat s = none := by
  show dropPat ('r' :: 'e' :: 'd' :: 'd' :: '.' :: 'i' :: 't' :: '/' :: []) s = none
  match s with
  | [] => rfl
  | [c1] => simp [dropPat]
  | [c1, c2] => simp [dropPat]
  | [c1, c2, c3] => simp [dropPat]
  | [c1, c2, c3, c4] => simp [dropPat]
  | c1 :: c2 :: c3 :: c4 :: c5 :: rest =>
    have h5 : lowerChar c5 ≠ '.' := hs c5 (by simp)
    simp [dropPat, h5]

/-- The short-link pattern never matches inside an alphanumeric run
followed by a slash (the tail of a canonical long-form URL). -/
theorem findCapture_shortPat_alnum_slash (m : List Char)
    (hm : ∀ c ∈ m, jsAlnum c = true) :
    findCapture shortPat (m ++ ['/']) = none := by
  induction m with
  | nil => rfl
  | cons c m ih =>
    have hdrop : dropPat shortPat (c :: (m ++ ['/'])) = none := by
      apply dropPat_shortPat_none
      intro x hx
      rcases List.mem_cons.mp hx with h | h
      · subst h
        exact lowerChar_ne_dot x (hm x (by simp))
      · rcases List.mem_append.mp h with h2 | h2
        · exact lowerChar_ne_dot x (hm x (by simp [h2]))
        · simp at h2
          subst h2
          decide
    rw [List.cons_append, findCapture, hdrop]
    exact ih (fun x hx => hm x (by simp [hx]))

/-- `takeWhile` keeps an all-alphanumeric list whole. -/
theorem takeWhile_all (n : List Char) (h : ∀ c ∈ n, jsAlnum c = true) :
    n.takeWhile jsAlnum = n := by
  induction n with
  | nil => rfl
  | cons c m ih =>
    rw [List.takeWhile_cons, if_pos (h c (by simp))]
    rw [ih (fun x hx => h x (by simp [hx]))]

/-- `takeWhile` stops exactly at the slash terminating a canonical URL's
identifier segment. -/
theorem takeWhile_alnum_slash (n : List Char) (h : ∀ c ∈ n, jsAlnum c = true) :
    (n ++ ['/']).takeWhile jsAlnum = n := by
  induction n with
  | nil => rfl
  | cons c m ih =>
    rw [List.cons_append, List.takeWhile_cons, if_pos (h c (by simp))]
    rw [ih (fun x hx => h x (by simp [hx]))]

/-- Scanning a short-form URL: the pattern first matches right after the
`https://` scheme, capturing whatever alphanumeric run follows. -/
theorem scan_short (n : List Char) :
    findCapture shortPat ("https://redd.it/".data ++ n) =
      if (n.takeWhile jsAlnum).isEmpty then findCapture shortPat ("edd.it/".data ++ n)
      else some (n.takeWhile jsAlnum) := rfl

/-- Scanning a canonical long-form URL for the short-link pattern fails
throughout the fixed leading text, leaving only the identifier segment. -/
theorem scan_long_skips_short (n : List Char) :
    findCapture shortPat ("https://www.reddit.com/r/HFY/comments/".data ++ (n ++ ['/'])) =
      findCapture shortPat (n ++ ['/']) := rfl

/-- Scanning a canonical long-form URL for the long-link pattern first
succeeds at the `r/HFY/comments/` segment. -/
theorem scan_long (n : List Char) :
    findCapture longPat ("https://www.reddit.com/r/HFY/comments/".data ++ (n ++ ['/'])) =
      if ((n ++ ['/']).takeWhile jsAlnum).isEmpty then
        findCapture longPat ("/HFY/comments/".data ++ (n ++ ['/']))
      else some ((n ++ ['/']).takeWhile jsAlnum) := rfl

/-- A successful capture is a non-empty alphanumeric run. -/
theorem findCapture_some_shape (pat s cap : List Char)
    (h : findCapture pat s = some cap) :
    cap ≠ [] ∧ ∀ c ∈ cap, jsAlnum c = true := by
  induction s with
  | nil => simp [findCapture] at h
  | cons c rest ih =>
    rw [findCapture] at h
    cases hd : dropPat pat (c :: rest) with
    | none =>
      rw [hd] at h
      exact ih h
    | some after =>
      rw [hd] at h
      dsimp only [] at h
      by_cases he : (after.takeWhile jsAlnum).isEmpty
      · rw [if_pos he] at h
        exact ih h
      · rw [if_neg he] at h
        injection h with h
        subst h
        refine ⟨fun hnil => by rw [hnil] at he; simp at he, ?_⟩
        intro x hx
        exact List.mem_takeWhile_imp hx

/-- Lower-casing a character list is idempotent. -/
theorem lowerStr_lowerStr (l : List Char) : lowerStr (lowerStr l) = lowerStr l := by
  simp [lowerStr, List.map_map, Function.comp, lowerChar_lowerChar]

/-- Any identifier produced by `nameFromURL` is a non-empty alphanumeric
token already in lowercase. -/
theorem nameFromURL_some_shape (url nm : String) (h : nameFromURL url = some nm) :
    nm.data ≠ [] ∧ (∀ c ∈ nm.data, jsAlnum c = true) ∧ lowerStr nm.data = nm.data := by
  unfold nameFromURL at h
  have key : ∀ cap : List Char, findCapture shortPat url.data = some cap ∨
      findCapture longPat url.data = some cap → String.mk (lowerStr cap) = nm →
      nm.data ≠ [] ∧ (∀ c ∈ nm.data, jsAlnum c = true) ∧ lowerStr nm.data = nm.data := by
    intro cap hcap heq
    have hshape : cap ≠ [] ∧ ∀ c ∈ cap, jsAlnum c = true := by
      rcases hcap with h1 | h1
      · exact findCapture_some_shape _ _ _ h1
      · exact findCapture_some_shape _ _ _ h1
    have hdata : nm.data = lowerStr cap := by rw [← heq]
    refine ⟨?_, ?_, ?_⟩
    · rw [hdata]
      simp [lowerStr]
      exact hshape.1
    · intro c hc
      rw [hdata] at hc
      rcases List.mem_map.mp hc with ⟨a, ha, rfl⟩
      exact jsAlnum_lowerChar a (hshape.2 a ha)
    · rw [hdata]
      exact lowerStr_lowerStr cap
  cases h1 : findCapture shortPat url.data with
  | some cap =>
    rw [h1] at h
    injection h with h
    exact key cap (Or.inl h1) h
  | none =>
    rw [h1] at h
    cases h2 : findCapture longPat url.data with
    | some cap =>
      rw [h2] at h
      injection h with h
      exact key cap (Or.inr h2) h
    | none =>
      rw [h2] at h
      exact absurd h (by simp)

/-- `nameFromURL` on a short-form URL with an alphanumeric identifier:
the lowercased identifier is extracted. -/
theorem nameFromURL_short_url (n : List Char) (hne : n ≠ [])
    (ha : ∀ c ∈ n, jsAlnum c = true) :
    nameFromURL ("https://redd.it/" ++ String.mk n) = some (String.mk (lowerStr n)) := by
  unfold nameFromURL
  have hd : ("https://redd.it/" ++ String.mk n).data = "https://redd.it/".data ++ n := by
    simp [String.data_append]
  rw [hd, scan_short n, takeWhile_all n ha, if_neg (by simpa using hne)]

/-- `nameFromURL` on a canonical long-form URL with an alphanumeric
identifier: the lowercased identifier is extracted. -/
theorem nameFromURL_canonical (n : List Char) (hne : n ≠ [])
    (ha : ∀ c ∈ n, jsAlnum c = true) :
    nameFromURL ("https://www.reddit.com/r/HFY/comments/" ++ String.mk n ++ "/") =
      some (String.mk (lowerStr n)) := by
  unfold nameFromURL
  have hd : ("https://www.reddit.com/r/HFY/comments/" ++ String.mk n ++ "/").data =
      "https://www.reddit.com/r/HFY/comments/".data ++ (n ++ ['/']) := by
    simp [String.data_append]
  rw [hd, scan_long_skips_short n, findCapture_shortPat_alnum_slash n ha]
  rw [scan_long n, takeWhile_alnum_slash n ha, if_neg (by simpa using hne)]

/-- Unfolding of `urlFromName` on a present name. -/
theorem urlFromName_some (s : String) :
    urlFromName (some s) = "https://www.reddit.com/r/HFY/comments/" ++ s ++ "/" := rfl

/-! ## Claims -/

/-- Claim C1 (code bug).  The claim says that for a successfully fetched
payload that does not match the expected post shape, `collectPost`
signals a distinct error via the error callback, carrying the offending
URL and cause, rather than crashing.  The code has no such handling: on
the payload `[]` (an empty JSON array) the destructuring
`json[0]['data']['children'][0]['data']` reads a property of `undefined`
and throws an uncaught `TypeError`; no error callback runs.  This
theorem evaluates the embedded `collectPost` at that failing input and
shows the outcome is the crash, not the error-callback outcome. -/
theorem collectPost_malformed_payload_crashes :
    (collectPost (fun _ => .ok (.arr [])) id [] "https://redd.it/abc1").1 =
      .crash := rfl

/-- Claim C2 (code bug).  The claim says that when zero qualifying part
links are found, `collectSeriesInfoFromWikiPage` invokes its completion
callback with a Series whose parts list is empty and performs no
author-backfill fetch.  In the code the completion callback is only ever
invoked inside `if (parts.length > 0)`, so with zero parts the function
returns without invoking *any* callback (and indeed performs no
author-backfill fetch).  This theorem evaluates the embedded strategy on
a wikipage whose only link yields no identifier: the event trace is
empty — no completion, no error, no part fetch. -/
theorem wiki_zero_parts_no_callback :
    collectSeriesInfoFromWikiPage
      (.ok (.obj [("kind", .str "wikipage"), ("data", .obj [("content_html", .str "x")])]))
      id
      (fun _ => ⟨[], [], [], [⟨"a link", some "https://example.com/q"⟩]⟩)
      (fun _ => .crash) "https://www.reddit.com/r/HFY/wiki/series/foo" = [] := rfl

/-- Claim C3 (code bug).  The claim says that on a cached response whose
kind is not "wikipage", `collectSeriesInfoFromWikiPage` fails with a
descriptive error and aborts all further progress.  The code calls
`errorCallback(url + " is not a wiki page")` but does not return (source
line 60), so execution falls through to decode and parse the payload,
extract parts, and even invoke the completion callback.  This theorem
evaluates the embedded strategy on a non-wikipage payload that happens
to carry parsable content: the trace shows the error notification
*followed by* a part fetch and a completion. -/
theorem wiki_non_wikipage_continues :
    collectSeriesInfoFromWikiPage
      (.ok (.obj [("kind", .str "Listing"), ("data", .obj [("content_html", .str "x")])]))
      id
      (fun _ => ⟨["My Series"], [], [], [⟨"Part 1", some "https://redd.it/aaa1"⟩]⟩)
      (fun _ => .ok ⟨"authorX", "postTitle", "t3_aaa1", "body", "https://redd.it/aaa1"⟩)
      "https://example.org/page" =
      [.errored "https://example.org/page is not a wiki page",
        .fetchedFirstPart "https://redd.it/aaa1",
        .completed ⟨"My Series", "authorX",
          [⟨some "aaa1", "Part 1", "https://redd.it/aaa1"⟩]⟩] := rfl

/-- Claim C4 counterexample.  The claim says that when no identifier can
be extracted, `unshorten` propagates undefined rather than returning any
URL string.  At the concrete URL `https://example.com/page` the
identifier is undefined (`nameFromURL` yields `none`), the
spec-modelled normalization (`unshortenPerSpec`) accordingly propagates
undefined — but the code's `unshorten` returns the well-formed URL
string `https://www.reddit.com/r/HFY/comments/undefined/`, the
JavaScript concatenation having coerced `undefined` into the text
`"undefined"`. -/
theorem unshorten_no_identifier_counterexample :
    nameFromURL "https://example.com/page" = none ∧
    unshortenPerSpec "https://example.com/page" = none ∧
    unshorten "https://example.com/page" =
      "https://www.reddit.com/r/HFY/comments/undefined/" :=
  ⟨by decide, by decide, by decide⟩

/-- Claim C4, amended: for every URL from which no identifier can be
extracted, `unshorten` returns the fixed URL string
`https://www.reddit.com/r/HFY/comments/undefined/` (the undefined
identifier is coerced into the URL text) rather than propagating
undefined. -/
theorem unshorten_no_identifier_coerces (url : String) (h : nameFromURL url = none) :
    unshorten url = "https://www.reddit.com/r/HFY/comments/undefined/" := by
  show urlFromName (nameFromURL url) = _
  rw [h]
  rfl

/-- Witness for the amended claim C4 at a concrete identifier-free URL. -/
theorem unshorten_no_identifier_coerces_witness :
    nameFromURL "notaredditlink" = none ∧
    unshorten "notaredditlink" = "https://www.reddit.com/r/HFY/comments/undefined/" :=
  ⟨by decide, unshorten_no_identifier_coerces "notaredditlink" (by decide)⟩

/-- Claim C5 counterexample.  The claim says two back-to-back calls are
always spaced at least the configured minimum interval apart, measured
from the first call's completion timestamp.  But the delay is computed
once, at call time, from the timestamp then on record: two calls both
entering at time 0 with the last-completion timestamp 0 and interval
2000 both schedule their requests for time `requestBegin 0 0 2000 =
2000`, so the second begins simultaneously with the first — and in
particular strictly earlier than the first request's completion (time
2100, if it takes 100) plus the interval. -/
theorem requestBegin_concurrent_counterexample :
    requestBegin 0 0 2000 = 2000 ∧
    requestBegin 0 0 2000 < (requestBegin 0 0 2000 + 100) + 2000 := by
  constructor <;> decide

/-- Claim C5, amended: every call begins its network request no earlier
than the configured minimum interval after the last-completion timestamp
it read at call time.  Hence two calls issued sequentially — the second
entering after the first's completion has been timestamped — are spaced
at least the interval from that completion; but calls issued
concurrently (before the first request completes) read a stale shared
timestamp and may begin without the minimum spacing, as the
counterexample shows. -/
theorem requestBegin_ge_last_plus_interval (now last interval : Int) :
    last + interval ≤ requestBegin now last interval := by
  unfold requestBegin requestDelay
  rcases le_total 0 (last + interval - now) with h | h
  · rw [max_eq_right h]
    omega
  · rw [max_eq_left h]
    omega

/-- Claim C6 (confirmed).  For a parts list of length 3 where fetching
part 1 succeeds and fetching part 2 fails, `collectPartPosts` produces
exactly the trace: fetch of part 1, one "collected" notification (part 1,
with the listing title substituted), fetch of part 2, and one "error"
notification carrying part 2 and the error message — and nothing more,
so part 3 is never fetched. -/
theorem collectPartPosts_second_failure
    (cp : String → PostResult) (cb : BatchCallbacks) (p1 p2 p3 : PartRef)
    (post1 : Post) (m : String) (f : Post → Bool) (g : String → PartRef → Bool)
    (h1 : cp p1.url = .ok post1)
    (h2 : cp p2.url = .err m)
    (hcb : cb.collectedPost = some f)
    (hf : f { post1 with title := p1.title } = true)
    (herr : cb.error = some g) :
    collectPartPosts cp [p1, p2, p3] cb =
      [.fetchAttempt p1.url, .collected { post1 with title := p1.title },
        .fetchAttempt p2.url, .errored m p2] := by
  unfold collectPartPosts
  rw [collectPart, h1]
  dsimp only
  rw [hcb]
  dsimp only
  rw [hf]
  rw [collectPart, h2]
  dsimp only
  rw [herr]
  simp

/-- Witness for claim C6 at a concrete three-part batch whose second
fetch fails. -/
theorem collectPartPosts_second_failure_witness :
    collectPartPosts
      (fun u => if u == "https://redd.it/p1" then
          .ok ⟨"au", "origTitle", "t3_p1", "c1", "https://redd.it/p1"⟩
        else .err "Failed to retrieve url (Not Found)")
      [⟨none, "T1", "https://redd.it/p1"⟩, ⟨none, "T2", "https://redd.it/p2"⟩,
        ⟨none, "T3", "https://redd.it/p3"⟩]
      ⟨some (fun _ => true), some (fun _ _ => true), some (fun _ => true)⟩ =
      [.fetchAttempt "https://redd.it/p1",
        .collected ⟨"au", "T1", "t3_p1", "c1", "https://redd.it/p1"⟩,
        .fetchAttempt "https://redd.it/p2",
        .errored "Failed to retrieve url (Not Found)" ⟨none, "T2", "https://redd.it/p2"⟩] :=
  collectPartPosts_second_failure
    (fun u => if u == "https://redd.it/p1" then
        .ok ⟨"au", "origTitle", "t3_p1", "c1", "https://redd.it/p1"⟩
      else .err "Failed to retrieve url (Not Found)")
    ⟨some (fun _ => true), some (fun _ _ => true), some (fun _ => true)⟩
    ⟨none, "T1", "https://redd.it/p1"⟩ ⟨none, "T2", "https://redd.it/p2"⟩
    ⟨none, "T3", "https://redd.it/p3"⟩
    ⟨"au", "origTitle", "t3_p1", "c1", "https://redd.it/p1"⟩
    "Failed to retrieve url (Not Found)" (fun _ => true) (fun _ _ => true)
    rfl rfl rfl rfl rfl

/-- When every pattern-matching link targets an identifier already in
the visited list, `findNextURL` scans past all of them and reports no
next link. -/
theorem findNextURL_all_visited
    (regex : String → Bool) (links : List Link) (prev : List (Option String))
    (hl : ∀ l ∈ links, regex l.text = true →
      ∃ h, l.href = some h ∧ nameFromURL h ∈ prev) :
    findNextURL regex links prev = .ok none := by
  induction links with
  | nil => rfl
  | cons l rest ih =>
    rw [findNextURL]
    by_cases hr : regex l.text
    · obtain ⟨h, hhref, hmem⟩ := hl l (by simp) hr
      rw [if_pos hr, hhref]
      dsimp only
      rw [if_pos (by simpa using hmem)]
      exact ih (fun x hx => hl x (by simp [hx]))
    · rw [if_neg hr]
      exact ih (fun x hx => hl x (by simp [hx]))

/-- One crawl step in which all pattern-matching links of the fetched
post are already visited: the post is collected and the crawl
immediately fires "done", regardless of remaining fuel. -/
theorem crawl_terminates_on_visited
    (cp : String → PostResult) (parseLinks : String → List Link)
    (regex : String → Bool) (cb : CrawlCallbacks) (fuel : Nat) (url : String)
    (post : Post) (collected : List Post) (prev : List (Option String))
    (f : Post → Bool) (g : List Post → Bool)
    (hcp : cp url = .ok post)
    (hcb : cb.collectedPost = some f)
    (hf : f post = true)
    (hdone : cb.done = some g)
    (hl : ∀ l ∈ parseLinks post.content, regex l.text = true →
      ∃ h, l.href = some h ∧ nameFromURL h ∈ prev ++ [nameFromURL url]) :
    collectPostRecurse cp parseLinks regex cb (fuel + 1) url collected prev =
      [.collected post, .done (collected ++ [post])] := by
  rw [collectPostRecurse, hcp]
  dsimp only
  rw [findNextURL_all_visited regex _ _ hl, hdone, hcb]
  dsimp only
  rw [hf]
  simp

/-- Claim C7 (confirmed).  If every link of the current post whose
visible text matches the configured pattern targets an identifier
already in the visited list, then `findNextURL` returns no next link,
and `findSeriesParts` — whose visited list after fetching the start URL
is exactly the start URL's identifier — terminates by firing the "done"
notification with the collected posts: a repeated identifier never
causes an infinite loop. -/
theorem findSeriesParts_no_loop_on_visited :
    (∀ (regex : String → Bool) (links : List Link) (prev : List (Option String)),
      (∀ l ∈ links, regex l.text = true →
        ∃ h, l.href = some h ∧ nameFromURL h ∈ prev) →
      findNextURL regex links prev = .ok none) ∧
    (∀ (cp : String → PostResult) (parseLinks : String → List Link)
      (regex : String → Bool) (cb : CrawlCallbacks) (fuel : Nat) (startUrl : String)
      (post : Post) (f : Post → Bool) (g : List Post → Bool),
      cp startUrl = .ok post →
      cb.collectedPost = some f →
      f post = true →
      cb.done = some g →
      (∀ l ∈ parseLinks post.content, regex l.text = true →
        ∃ h, l.href = some h ∧ nameFromURL h ∈ [nameFromURL startUrl]) →
      findSeriesParts cp parseLinks regex cb (fuel + 1) startUrl =
        [.collected post, .done [post]]) :=
  ⟨findNextURL_all_visited,
    fun cp parseLinks regex cb fuel startUrl post f g hcp hcb hf hdone hl => by
      have := crawl_terminates_on_visited cp parseLinks regex cb fuel startUrl post
        [] [] f g hcp hcb hf hdone (by simpa using hl)
      simpa [findSeriesParts] using this⟩

/-- Witness for claim C7: a start post whose only matching link points
back at the start post itself; the crawl collects one post and fires
"done". -/
theorem findSeriesParts_no_loop_witness :
    findSeriesParts
      (fun _ => .ok ⟨"au", "ti", "t3_abc1", "content", "https://redd.it/abc1"⟩)
      (fun _ => [⟨"Next", some "https://redd.it/abc1"⟩])
      (fun t => t == "Next")
      ⟨some (fun _ => true), some (fun _ => true), some (fun _ => true), some (fun _ => true)⟩
      1 "https://redd.it/abc1" =
      [.collected ⟨"au", "ti", "t3_abc1", "content", "https://redd.it/abc1"⟩,
        .done [⟨"au", "ti", "t3_abc1", "content", "https://redd.it/abc1"⟩]] :=
  findSeriesParts_no_loop_on_visited.2
    (fun _ => .ok ⟨"au", "ti", "t3_abc1", "content", "https://redd.it/abc1"⟩)
    (fun _ => [⟨"Next", some "https://redd.it/abc1"⟩])
    (fun t => t == "Next")
    ⟨some (fun _ => true), some (fun _ => true), some (fun _ => true), some (fun _ => true)⟩
    0 "https://redd.it/abc1" ⟨"au", "ti", "t3_abc1", "content", "https://redd.it/abc1"⟩
    (fun _ => true) (fun _ => true) rfl rfl rfl rfl
    (by
      intro l hl hr
      simp at hl
      subst hl
      exact ⟨"https://redd.it/abc1", rfl, by decide⟩)

/-- Claim C8 (confirmed).  Normalization is idempotent — for every URL
from which an identifier is extractable, normalizing the normalized URL
changes nothing — and form-equivalent: a short-form URL and a long-form
URL naming the same alphanumeric identifier, in any letter case,
normalize to the identical canonical URL (the long form built from the
lowercased identifier). -/
theorem normalize_idempotent_and_form_equivalent :
    (∀ url nm, nameFromURL url = some nm → unshorten (unshorten url) = unshorten url) ∧
    (∀ n : List Char, n ≠ [] → (∀ c ∈ n, jsAlnum c = true) →
      unshorten ("https://redd.it/" ++ String.mk n) =
          urlFromName (some (String.mk (lowerStr n))) ∧
        unshorten ("https://www.reddit.com/r/HFY/comments/" ++ String.mk n ++ "/") =
          urlFromName (some (String.mk (lowerStr n)))) := by
  constructor
  · intro url nm h
    obtain ⟨hne, ha, hfix⟩ := nameFromURL_some_shape url nm h
    have h1 : unshorten url = "https://www.reddit.com/r/HFY/comments/" ++ nm ++ "/" := by
      unfold unshorten
      rw [h, urlFromName_some]
    have hmk : String.mk nm.data = nm := by
      cases nm
      rfl
    have h2 : nameFromURL (unshorten url) = some nm := by
      rw [h1]
      have hc := nameFromURL_canonical nm.data hne ha
      rw [hfix, hmk] at hc
      exact hc
    show urlFromName (nameFromURL (unshorten url)) = unshorten url
    rw [h2, urlFromName_some, h1]
  · intro n hne ha
    constructor
    · show urlFromName (nameFromURL _) = _
      rw [nameFromURL_short_url n hne ha]
    · show urlFromName (nameFromURL _) = _
      rw [nameFromURL_canonical n hne ha]

/-- Witness for claim C8: idempotence at a concrete mixed-case short
link, and form-equivalence at the concrete identifier `Xy9`. -/
theorem normalize_idempotent_witness :
    (nameFromURL "https://redd.it/AbC1" = some "abc1" ∧
      unshorten (unshorten "https://redd.it/AbC1") = unshorten "https://redd.it/AbC1") ∧
    (unshorten ("https://redd.it/" ++ String.mk ['X', 'y', '9']) =
        urlFromName (some (String.mk (lowerStr ['X', 'y', '9']))) ∧
      unshorten ("https://www.reddit.com/r/HFY/comments/" ++ String.mk ['X', 'y', '9'] ++ "/") =
        urlFromName (some (String.mk (lowerStr ['X', 'y', '9'])))) :=
  ⟨⟨by decide, normalize_idempotent_and_form_equivalent.1 "https://redd.it/AbC1" "abc1" (by decide)⟩,
    normalize_idempotent_and_form_equivalent.2 ['X', 'y', '9'] (by decide) (by decide)⟩

/-- Claim C9 (confirmed).  A call of `requestRedditJSONCached` that
succeeds (by hit or by store-on-success) leaves a cache from which a
later call with the same URL resolves with the same value, touches no
network, and leaves the cache unchanged; a failed fetch stores nothing —
the call reports the error with the cache unchanged — so a future call
on that cache issues the network request again. -/
theorem requestRedditJSONCached_memoizes :
    (∀ net net2 cache url v cache1 b,
      requestRedditJSONCached net cache url = (.ok v, cache1, b) →
      requestRedditJSONCached net2 cache1 url = (.ok v, cache1, false)) ∧
    (∀ net cache url e, cache.find? (fun p => p.1 == url) = none →
      net url = .error e →
      requestRedditJSONCached net cache url = (.error e, cache, true)) ∧
    (∀ (net2 : String → Except String JSVal) cache url w,
      cache.find? (fun p => p.1 == url) = none →
      net2 url = .ok w →
      requestRedditJSONCached net2 cache url = (.ok w, (url, w) :: cache, true)) := by
  refine ⟨?_, ?_, ?_⟩
  · intro net net2 cache url v cache1 b h
    unfold requestRedditJSONCached at h ⊢
    cases hf : cache.find? (fun p => p.1 == url) with
    | some p =>
      rw [hf] at h
      simp only [Prod.mk.injEq, Except.ok.injEq] at h
      obtain ⟨hv, hc, _⟩ := h
      subst hv
      subst hc
      rw [hf]
    | none =>
      rw [hf] at h
      cases hn : net url with
      | ok j =>
        rw [hn] at h
        simp only [Prod.mk.injEq, Except.ok.injEq] at h
        obtain ⟨hv, hc, _⟩ := h
        subst hv
        subst hc
        rw [List.find?_cons_of_pos _ (by simp)]
      | error e =>
        rw [hn] at h
        simp at h
  · intro net cache url e hf hn
    unfold requestRedditJSONCached
    rw [hf, hn]
  · intro net2 cache url w hf hn
    unfold requestRedditJSONCached
    rw [hf, hn]

/-- Witness for claim C9: a hit on a one-entry cache resolves without
network; a miss whose fetch fails leaves the cache empty; a retry whose
fetch succeeds stores the entry. -/
theorem requestRedditJSONCached_memoizes_witness :
    (requestRedditJSONCached (fun _ => .error "net down") [("u", JSVal.null)] "u" =
      (.ok JSVal.null, [("u", JSVal.null)], false)) ∧
    (requestRedditJSONCached (fun _ => .error "net down") [] "u" =
      (.error "net down", [], true)) ∧
    (requestRedditJSONCached (fun _ => .ok (JSVal.str "v")) [] "u" =
      (.ok (JSVal.str "v"), [("u", JSVal.str "v")], true)) :=
  ⟨requestRedditJSONCached_memoizes.1 (fun _ => .ok JSVal.null) _ [] "u" JSVal.null
      [("u", JSVal.null)] true rfl,
    requestRedditJSONCached_memoizes.2.1 _ [] "u" "net down" rfl rfl,
    requestRedditJSONCached_memoizes.2.2 _ [] "u" (JSVal.str "v") rfl rfl⟩

/-- Claim C10 (confirmed).  In `findNextURL`, when the visited list does
not contain the undefined identifier, a link whose visible text matches
the pattern but whose href yields no derivable identifier (`nameFromURL`
returns `none`) is returned as the next URL — links to non-post URLs are
not filtered out of next-link detection.  (Links before it whose text
does not match the pattern are scanned past.) -/
theorem findNextURL_keeps_unidentifiable_link
    (regex : String → Bool) (pre rest : List Link) (text h : String)
    (prev : List (Option String))
    (hpre : ∀ l ∈ pre, regex l.text = false)
    (htext : regex text = true)
    (hname : nameFromURL h = none)
    (hprev : (none : Option String) ∉ prev) :
    findNextURL regex (pre ++ ⟨text, some h⟩ :: rest) prev = .ok (some h) := by
  induction pre with
  | nil =>
    rw [List.nil_append, findNextURL, if_pos htext]
    dsimp only
    rw [hname, if_neg]
    intro hc
    exact hprev (by simpa using hc)
  | cons l pre ih =>
    rw [List.cons_append, findNextURL, if_neg]
    · exact ih (fun x hx => hpre x (by simp [hx]))
    · simp [hpre l (by simp)]

/-- Witness for claim C10: a matching link whose href is an off-site URL
with no extractable identifier is returned as the next URL. -/
theorem findNextURL_keeps_unidentifiable_link_witness :
    findNextURL (fun t => t == "Next")
      [⟨"Prev", some "https://redd.it/zzz0"⟩, ⟨"Next", some "https://example.com/offsite"⟩]
      [some "zzz0"] = .ok (some "https://example.com/offsite") := by
  have := findNextURL_keeps_unidentifiable_link (fun t => t == "Next")
    [⟨"Prev", some "https://redd.it/zzz0"⟩] [] "Next" "https://example.com/offsite"
    [some "zzz0"] (by intro l hl; simp at hl; subst hl; decide) (by decide) (by decide)
    (by decide)
  simpa using this

end Hfy
